import Mathlib

/-!
Verification of the CoP (center-of-pressure) support-region descriptor
`CoPSupportTpl` from `include/crocoddyl/multibody/cop-support.hxx`.

The C++ template scalar is modelled as `ℝ` (ideal real arithmetic);
`std::numeric_limits<Scalar>::max()` is modelled as the exact value of
`DBL_MAX`, a concrete positive real constant `maxVal`.  Fixed-size Eigen
vectors and matrices are modelled as explicit record types over `ℝ`.
Warnings written to `std::cerr` are modelled as propositions stating that
the corresponding warning branch is taken.
-/

noncomputable section

open Classical

namespace CoPSupport

/-- Model of `std::numeric_limits<double>::max()`: the exact real value of
`DBL_MAX = (2^53 - 1) * 2^971`. -/
def maxVal : ℝ := (2 ^ 53 - 1) * 2 ^ 971

/-- A 2-vector (`Eigen::Vector2`), used for the box extent. -/
@[ext]
structure Vec2 where
  x : ℝ
  y : ℝ

/-- A 3-vector (`Eigen::Vector3`). -/
@[ext]
structure Vec3 where
  x : ℝ
  y : ℝ
  z : ℝ

/-- A 4-vector (`Eigen::Vector4`), used for the bounds. -/
@[ext]
structure Vec4 where
  a : ℝ
  b : ℝ
  c : ℝ
  d : ℝ

/-- A 6-vector: a spatial wrench `[force(3); torque(3)]`, and also one row
of the 4×6 inequality matrix. -/
@[ext]
structure Vec6 where
  f0 : ℝ
  f1 : ℝ
  f2 : ℝ
  t0 : ℝ
  t1 : ℝ
  t2 : ℝ

/-- A 3×3 matrix (`Eigen::Matrix3`), row-major fields `mIJ` = row `I`, column `J`. -/
@[ext]
structure Mat3 where
  m00 : ℝ
  m01 : ℝ
  m02 : ℝ
  m10 : ℝ
  m11 : ℝ
  m12 : ℝ
  m20 : ℝ
  m21 : ℝ
  m22 : ℝ

/-- The 4×6 inequality matrix, as four rows. -/
@[ext]
structure Mat46 where
  r0 : Vec6
  r1 : Vec6
  r2 : Vec6
  r3 : Vec6

/-- `Matrix3s::Identity()`. -/
def id3 : Mat3 := ⟨1, 0, 0, 0, 1, 0, 0, 0, 1⟩

/-- `Vector3s::UnitZ()`, the canonical up-axis. -/
def unitZ : Vec3 := ⟨0, 0, 1⟩

/-- The zero 3-vector. -/
def vec3Zero : Vec3 := ⟨0, 0, 0⟩

/-- The zero 4-vector (`setZero()` on a `Vector4s`). -/
def vec4Zero : Vec4 := ⟨0, 0, 0, 0⟩

/-- The zero 6-vector. -/
def vec6Zero : Vec6 := ⟨0, 0, 0, 0, 0, 0⟩

/-- The zero 4×6 matrix (`A_.setZero()`). -/
def mat46Zero : Mat46 := ⟨vec6Zero, vec6Zero, vec6Zero, vec6Zero⟩

/-- Column 0 of a 3×3 matrix (`R.col(0)`). -/
def col0 (M : Mat3) : Vec3 := ⟨M.m00, M.m10, M.m20⟩

/-- Column 1 of a 3×3 matrix (`R.col(1)`). -/
def col1 (M : Mat3) : Vec3 := ⟨M.m01, M.m11, M.m21⟩

/-- Column 2 of a 3×3 matrix (`R.col(2)`). -/
def col2 (M : Mat3) : Vec3 := ⟨M.m02, M.m12, M.m22⟩

/-- Transpose-apply: `M.transpose() * v`. -/
def matTvec (M : Mat3) (v : Vec3) : Vec3 :=
  ⟨M.m00 * v.x + M.m10 * v.y + M.m20 * v.z,
   M.m01 * v.x + M.m11 * v.y + M.m21 * v.z,
   M.m02 * v.x + M.m12 * v.y + M.m22 * v.z⟩

/-- Euclidean norm of a 3-vector (`v.norm()`). -/
def norm3 (v : Vec3) : ℝ := Real.sqrt (v.x ^ 2 + v.y ^ 2 + v.z ^ 2)

/-- Componentwise division by the norm (`v /= v.norm()`, `v.normalized()`). -/
def normalize3 (v : Vec3) : Vec3 :=
  ⟨v.x / norm3 v, v.y / norm3 v, v.z / norm3 v⟩

/-- Dot product of 3-vectors. -/
def dot3 (u v : Vec3) : ℝ := u.x * v.x + u.y * v.y + u.z * v.z

/-- Cross product of 3-vectors. -/
def cross3 (u v : Vec3) : Vec3 :=
  ⟨u.y * v.z - u.z * v.y, u.z * v.x - u.x * v.z, u.x * v.y - u.y * v.x⟩

/-- Dot product of a matrix row with a wrench. -/
def dot6 (r w : Vec6) : ℝ :=
  r.f0 * w.f0 + r.f1 * w.f1 + r.f2 * w.f2 + r.t0 * w.t0 + r.t1 * w.t1 + r.t2 * w.t2

/-- Modelled from the spec: the external rotation primitive
`Quaternions::FromTwoVectors(a, b).toRotationMatrix()` (Eigen, outside this
repository), specified in §6 as the shortest-arc (minimal-angle) rotation
taking `a` to `b`; Eigen normalizes both inputs internally.  Expressed by
the Rodrigues formula `R = I + K + K² / (1 + c)` with `w = u × v`,
`c = u ⬝ v`, `K = [w]ₓ`, for normalized `u`, `v` (the antiparallel
tie-break is outside the spec's contract and unused by any claim). -/
def fromTwoVectors (a b : Vec3) : Mat3 :=
  let u := normalize3 a
  let v := normalize3 b
  let c := dot3 u v
  let w := cross3 u v
  let k := 1 / (1 + c)
  ⟨1 + k * (-(w.y ^ 2) - w.z ^ 2), -w.z + k * (w.x * w.y), w.y + k * (w.x * w.z),
   w.z + k * (w.x * w.y), 1 + k * (-(w.x ^ 2) - w.z ^ 2), -w.x + k * (w.y * w.z),
   -w.y + k * (w.x * w.z), w.x + k * (w.y * w.z), 1 + k * (-(w.x ^ 2) - w.y ^ 2)⟩

/-- The full observable state of a `CoPSupportTpl` object: derived matrix
`A_`, bounds `ub_`, `lb_`, orientation `R_`, surface normal `nsurf_`,
and box extent `box_`. -/
@[ext]
structure State where
  A : Mat46
  ub : Vec4
  lb : Vec4
  R : Mat3
  nsurf : Vec3
  box : Vec2

/-- `CoPSupportTpl::update()`: recompute `A_`, `ub_`, `lb_` from the
current `R_` and `box_`.  `ub_` is zeroed, `lb_` is set to `-max` in every
component, and the four rows are
`[-W·c2ᵗ, ±c0ᵗ]`, `[-L·c2ᵗ, ±c1ᵗ]` with `L = box(0)/2`, `W = box(1)/2`. -/
def update (s : State) : State :=
  let L := s.box.x / 2
  let W := s.box.y / 2
  let c0 := col0 s.R
  let c1 := col1 s.R
  let c2 := col2 s.R
  { s with
    A := ⟨⟨-W * c2.x, -W * c2.y, -W * c2.z, c0.x, c0.y, c0.z⟩,
          ⟨-W * c2.x, -W * c2.y, -W * c2.z, -c0.x, -c0.y, -c0.z⟩,
          ⟨-L * c2.x, -L * c2.y, -L * c2.z, c1.x, c1.y, c1.z⟩,
          ⟨-L * c2.x, -L * c2.y, -L * c2.z, -c1.x, -c1.y, -c1.z⟩⟩,
    ub := vec4Zero,
    lb := ⟨-maxVal, -maxVal, -maxVal, -maxVal⟩ }

/-- The default constructor `CoPSupportTpl()`: identity orientation, up-axis
normal, box `(max, max)`; zero-initializes `A_`, `ub_`, `lb_` and then
calls `update()`. -/
def mkDefault : State :=
  update ⟨mat46Zero, vec4Zero, vec4Zero, id3, unitZ, ⟨maxVal, maxVal⟩⟩

/-- The constructor `CoPSupportTpl(R, box)`: stores `R` and `box` as given,
derives `nsurf_ = Rᵗ · UnitZ`, then calls `update()`. -/
def mkFromR (R : Mat3) (box : Vec2) : State :=
  update ⟨mat46Zero, vec4Zero, vec4Zero, R, matTvec R unitZ, box⟩

/-- The constructor `CoPSupportTpl(nsurf, box)`: stores `nsurf` and `box`
as given (no normalization, no negativity check), derives
`R_ = FromTwoVectors(nsurf, UnitZ)`, then calls `update()`. -/
def mkFromNsurf (nsurf : Vec3) (box : Vec2) : State :=
  update ⟨mat46Zero, vec4Zero, vec4Zero, fromTwoVectors nsurf unitZ, nsurf, box⟩

/-- Modelled from the spec: the richer wrench-cone representation
(`WrenchConeTpl`, whose definition is not part of this source tree), §6:
it exposes read access to its matrix, bounds vectors, orientation, normal
and extent via `get_A`, `get_ub`, `get_lb`, `get_R`, `get_nsurf`,
`get_box`, modelled as record fields. -/
@[ext]
structure WrenchCone where
  A : Mat46
  ub : Vec4
  lb : Vec4
  R : Mat3
  nsurf : Vec3
  box : Vec2

/-- The conversion constructor `CoPSupportTpl(const WrenchConeTpl&)`: every
field is copied verbatim from the wrench cone; `update()` is not called. -/
def mkFromWrenchCone (w : WrenchCone) : State :=
  ⟨w.A, w.ub, w.lb, w.R, w.nsurf, w.box⟩

/-- `CoPSupportTpl::set_R(R)`: stores `R` and recomputes
`nsurf_ = Rᵗ · UnitZ`.  No rotation validation and no `update()` call. -/
def set_R (s : State) (R : Mat3) : State :=
  { s with R := R, nsurf := matTvec R unitZ }

/-- `CoPSupportTpl::set_nsurf(n)`: stores `n`; if `n` is not unitary
(modelled with exact tolerance: `‖n‖ ≠ 1`) divides the stored copy by
`n.norm()` (warning emitted); then recomputes
`R_ = FromTwoVectors(nsurf_, UnitZ)`.  No `update()` call. -/
def set_nsurf (s : State) (n : Vec3) : State :=
  let n1 := if norm3 n = 1 then n else normalize3 n
  { s with nsurf := n1, R := fromTwoVectors n1 unitZ }

/-- The warning branch of `set_nsurf` is taken exactly when the input is
not unitary. -/
def nsurfWarns (n : Vec3) : Prop := ¬ norm3 n = 1

/-- `CoPSupportTpl::set_box(box)`: stores `box`, then replaces each
negative component by `max` (warning emitted per component).
No `update()` call. -/
def set_box (s : State) (b : Vec2) : State :=
  { s with box := ⟨if b.x < 0 then maxVal else b.x, if b.y < 0 then maxVal else b.y⟩ }

/-- The first warning branch of `set_box` is taken exactly when component 0
is negative. -/
def boxWarns0 (b : Vec2) : Prop := b.x < 0

/-- The second warning branch of `set_box` is taken exactly when component 1
is negative. -/
def boxWarns1 (b : Vec2) : Prop := b.y < 0

/-- A wrench satisfies the descriptor's constraint system when
`lb ≤ A · w ≤ ub` holds row by row. -/
def wrenchSatisfies (s : State) (w : Vec6) : Prop :=
  (s.lb.a ≤ dot6 s.A.r0 w ∧ dot6 s.A.r0 w ≤ s.ub.a) ∧
  (s.lb.b ≤ dot6 s.A.r1 w ∧ dot6 s.A.r1 w ≤ s.ub.b) ∧
  (s.lb.c ≤ dot6 s.A.r2 w ∧ dot6 s.A.r2 w ≤ s.ub.c) ∧
  (s.lb.d ≤ dot6 s.A.r3 w ∧ dot6 s.A.r3 w ≤ s.ub.d)

/-! ### General-purpose lemmas -/

lemma maxVal_pos : 0 < maxVal := by norm_num [maxVal]

lemma norm3_unitZ : norm3 unitZ = 1 := by
  simp [norm3, unitZ]

lemma norm3_002 : norm3 ⟨0, 0, 2⟩ = 2 := by
  have h : ((0 : ℝ) ^ 2 + 0 ^ 2 + 2 ^ 2) = 2 ^ 2 := by norm_num
  simp only [norm3, h]
  exact Real.sqrt_sq (by norm_num)

lemma normalize3_002 : normalize3 ⟨0, 0, 2⟩ = ⟨0, 0, 1⟩ := by
  simp [normalize3, norm3_002]

lemma normalize3_unitZ : normalize3 unitZ = unitZ := by
  unfold normalize3
  rw [norm3_unitZ]
  simp [unitZ]

lemma fromTwoVectors_002_unitZ : fromTwoVectors ⟨0, 0, 2⟩ unitZ = id3 := by
  simp only [fromTwoVectors, normalize3_002, normalize3_unitZ]
  simp [dot3, cross3, unitZ, id3]

lemma set_box_nonneg (s : State) (b : Vec2) (hx : 0 ≤ b.x) (hy : 0 ≤ b.y) :
    set_box s b = { s with box := b } := by
  cases b
  unfold set_box
  rw [if_neg (not_lt.mpr hx), if_neg (not_lt.mpr hy)]

/-! ### C1: mutators and re-derivation of the matrix and bounds -/

/-- C1 counterexample: after `set_box` grows the box of a descriptor built
with identity orientation and box (2, 2) to (4, 4), the stored inequality
matrix is stale — it differs from what `update` would compute from the
current orientation and extent. -/
theorem c1_stale_after_set_box_cex :
    (set_box (mkFromR id3 ⟨2, 2⟩) ⟨4, 4⟩).A ≠
      (update (set_box (mkFromR id3 ⟨2, 2⟩) ⟨4, 4⟩)).A := by
  rw [set_box_nonneg _ _ (by norm_num) (by norm_num)]
  intro h
  have h2 := congrArg (fun m => m.r0.f2) h
  simp only [mkFromR, update, matTvec, col0, col1, col2, id3, unitZ] at h2
  norm_num at h2

/-- C1 amended: the mutators `set_R`, `set_nsurf`, `set_box` update the
orientation, normal and extent but never recompute the derived
`inequality_matrix`, `upper_bound` or `lower_bound` — those keep their
pre-mutation values until `update` is called explicitly (only the
constructors call it). -/
theorem c1_mutators_leave_derived_state (s : State) (R : Mat3) (n : Vec3) (b : Vec2) :
    (set_R s R).A = s.A ∧ (set_R s R).ub = s.ub ∧ (set_R s R).lb = s.lb ∧
    (set_nsurf s n).A = s.A ∧ (set_nsurf s n).ub = s.ub ∧ (set_nsurf s n).lb = s.lb ∧
    (set_box s b).A = s.A ∧ (set_box s b).ub = s.ub ∧ (set_box s b).lb = s.lb :=
  ⟨rfl, rfl, rfl, rfl, rfl, rfl, rfl, rfl, rfl⟩

/-! ### C5: set_R performs no rotation validation -/

/-- C5 counterexample: passing the all-zero matrix (not a rotation) to
`set_R` does not fail and does not leave the state unchanged — the zero
matrix is silently stored and the normal is overwritten with the zero
vector. -/
theorem c5_set_R_no_validation_cex :
    (set_R mkDefault ⟨0, 0, 0, 0, 0, 0, 0, 0, 0⟩).R = ⟨0, 0, 0, 0, 0, 0, 0, 0, 0⟩ ∧
    (set_R mkDefault ⟨0, 0, 0, 0, 0, 0, 0, 0, 0⟩).nsurf = vec3Zero ∧
    (set_R mkDefault ⟨0, 0, 0, 0, 0, 0, 0, 0, 0⟩).R ≠ mkDefault.R := by
  refine ⟨rfl, ?_, ?_⟩
  · simp only [set_R, matTvec, vec3Zero]
    norm_num
  · intro h
    have h2 := congrArg Mat3.m00 h
    simp only [set_R, mkDefault, update, id3] at h2
    norm_num at h2

/-- C5 amended: `set_R` accepts every matrix without any rotation
validation and without failing: it stores the matrix as given and
recomputes the normal as `Rᵗ · up` (the third row of `R`); the derived
matrix, bounds and extent are untouched. -/
theorem c5_set_R_accepts_any_matrix (s : State) (R : Mat3) :
    (set_R s R).R = R ∧ (set_R s R).nsurf = ⟨R.m20, R.m21, R.m22⟩ ∧
    (set_R s R).A = s.A ∧ (set_R s R).box = s.box := by
  refine ⟨rfl, ?_, rfl, rfl⟩
  simp only [set_R, matTvec, unitZ]
  norm_num

/-! ### C6: the default-constructed descriptor -/

/-- C6 counterexample: the default constructor does not produce the
all-zero 4×6 matrix — `update` runs with box (max, max), so the
normal-force column of row 0 holds `-max/2`, not `0`. -/
theorem c6_default_matrix_not_zero_cex : mkDefault.A ≠ mat46Zero := by
  intro h
  have h2 := congrArg (fun m => m.r0.f2) h
  simp only [mkDefault, update, col0, col1, col2, id3, mat46Zero, vec6Zero] at h2
  norm_num [maxVal] at h2

/-- C6 amended: the default constructor yields identity orientation,
up-axis normal and extent (max, max); the derived matrix is not zero but
the generic derivation evaluated with half-extents `max/2`, with upper
bounds zero and lower bounds `-max`. -/
theorem c6_default_state :
    mkDefault.R = id3 ∧ mkDefault.nsurf = unitZ ∧
    mkDefault.box = ⟨maxVal, maxVal⟩ ∧
    mkDefault.A = ⟨⟨0, 0, -(maxVal / 2), 1, 0, 0⟩,
                   ⟨0, 0, -(maxVal / 2), -1, 0, 0⟩,
                   ⟨0, 0, -(maxVal / 2), 0, 1, 0⟩,
                   ⟨0, 0, -(maxVal / 2), 0, -1, 0⟩⟩ ∧
    mkDefault.ub = vec4Zero ∧
    mkDefault.lb = ⟨-maxVal, -maxVal, -maxVal, -maxVal⟩ := by
  refine ⟨rfl, rfl, rfl, ?_, rfl, rfl⟩
  simp only [mkDefault, update, col0, col1, col2, id3]
  norm_num

/-! ### C2: behaviour with both extent components unbounded -/

/-- C2 counterexample: with extent (max, max) — the default descriptor —
not every finite wrench satisfies the four rows: the wrench
(0, 0, -1, 0, 0, 0) produces `A·w = max/2 > 0` on row 0, violating the
zero upper bound. -/
theorem c2_unbounded_extent_cex :
    ¬ wrenchSatisfies mkDefault ⟨0, 0, -1, 0, 0, 0⟩ := by
  intro h
  have h1 := h.1.2
  simp only [wrenchSatisfies, mkDefault, update, dot6, col0, col1, col2, id3,
    vec4Zero] at h1
  norm_num [maxVal] at h1

/-- C2 amended: with extent (max, max) the derivation runs with the finite
half-extent `max/2`; every matrix entry is a finite real but the unbounded
half-extents do contribute a `-max/2` coefficient on the normal-force
column (so the rows are not constraint-free), and only wrenches such as a
pure compressive normal force of magnitude at most 2 satisfy all four
rows — not every finite wrench. -/
theorem c2_unbounded_extent_amended (fz : ℝ) (h0 : 0 ≤ fz) (h2 : fz ≤ 2) :
    mkDefault.A.r0.f2 = -(maxVal / 2) ∧
    wrenchSatisfies mkDefault ⟨0, 0, fz, 0, 0, 0⟩ := by
  have hm := maxVal_pos
  constructor
  · simp only [mkDefault, update, col2, id3]
    norm_num
  · simp only [wrenchSatisfies, mkDefault, update, dot6, col0, col1, col2, id3,
      vec4Zero]
    norm_num
    repeat' apply And.intro
    all_goals nlinarith

/-- C2 witness: the amended statement holds at the concrete normal force 1. -/
theorem c2_unbounded_extent_amended_witness :
    (0 : ℝ) ≤ 1 ∧ (1 : ℝ) ≤ 2 ∧
    (mkDefault.A.r0.f2 = -(maxVal / 2) ∧
      wrenchSatisfies mkDefault ⟨0, 0, 1, 0, 0, 0⟩) :=
  ⟨by norm_num, by norm_num,
   c2_unbounded_extent_amended 1 (by norm_num) (by norm_num)⟩

/-! ### C3: negative extent components -/

/-- C3 counterexample: the (orientation, box) constructor performs no
negativity correction — constructing with extent (-1, 2) stores (-1, 2),
not (max, 2). -/
theorem c3_ctor_negative_extent_cex :
    (mkFromR id3 ⟨-1, 2⟩).box = ⟨-1, 2⟩ ∧
    (mkFromR id3 ⟨-1, 2⟩).box ≠ ⟨maxVal, 2⟩ := by
  refine ⟨rfl, ?_⟩
  intro h
  have h2 := congrArg Vec2.x h
  simp only [mkFromR, update] at h2
  norm_num [maxVal] at h2

/-- C3 amended: only `set_box` corrects negative extent components — each
negative component (first, second, or both) is replaced by the unbounded
sentinel with its own warning branch taken, each nonnegative component is
kept unchanged — while both value constructors store the extent exactly as
given, without correction. -/
theorem c3_set_box_corrects_negative (s : State) (nx ny px py : ℝ)
    (hnx : nx < 0) (hny : ny < 0) (hpx : 0 ≤ px) (hpy : 0 ≤ py) :
    (set_box s ⟨nx, py⟩).box = ⟨maxVal, py⟩ ∧ boxWarns0 ⟨nx, py⟩ ∧
    (set_box s ⟨px, ny⟩).box = ⟨px, maxVal⟩ ∧ boxWarns1 ⟨px, ny⟩ ∧
    (set_box s ⟨nx, ny⟩).box = ⟨maxVal, maxVal⟩ ∧
    boxWarns0 ⟨nx, ny⟩ ∧ boxWarns1 ⟨nx, ny⟩ ∧
    (set_box s ⟨px, py⟩).box = ⟨px, py⟩ ∧
    (∀ R : Mat3, ∀ b : Vec2, (mkFromR R b).box = b) ∧
    (∀ n : Vec3, ∀ b : Vec2, (mkFromNsurf n b).box = b) := by
  refine ⟨?_, hnx, ?_, hny, ?_, hnx, hny, ?_, fun R b => rfl, fun n b => rfl⟩
  · simp only [set_box]
    rw [if_pos hnx, if_neg (not_lt.mpr hpy)]
  · simp only [set_box]
    rw [if_neg (not_lt.mpr hpx), if_pos hny]
  · simp only [set_box]
    rw [if_pos hnx, if_pos hny]
  · simp only [set_box]
    rw [if_neg (not_lt.mpr hpx), if_neg (not_lt.mpr hpy)]

/-- C3 witness: the amended statement holds at the concrete negative
components -1, -3 and nonnegative components 5, 2 — in particular
`set_box` turns (-1, 2) into (max, 2). -/
theorem c3_set_box_corrects_negative_witness :
    (-1 : ℝ) < 0 ∧ (-3 : ℝ) < 0 ∧ (0 : ℝ) ≤ 5 ∧ (0 : ℝ) ≤ 2 ∧
    ((set_box mkDefault ⟨-1, 2⟩).box = ⟨maxVal, 2⟩ ∧ boxWarns0 ⟨-1, 2⟩ ∧
      (set_box mkDefault ⟨5, -3⟩).box = ⟨5, maxVal⟩ ∧ boxWarns1 ⟨5, -3⟩ ∧
      (set_box mkDefault ⟨-1, -3⟩).box = ⟨maxVal, maxVal⟩ ∧
      boxWarns0 ⟨-1, -3⟩ ∧ boxWarns1 ⟨-1, -3⟩ ∧
      (set_box mkDefault ⟨5, 2⟩).box = ⟨5, 2⟩ ∧
      (∀ R : Mat3, ∀ b : Vec2, (mkFromR R b).box = b) ∧
      (∀ n : Vec3, ∀ b : Vec2, (mkFromNsurf n b).box = b)) :=
  ⟨by norm_num, by norm_num, by norm_num, by norm_num,
   c3_set_box_corrects_negative mkDefault (-1) (-3) 5 2 (by norm_num) (by norm_num)
     (by norm_num) (by norm_num)⟩

lemma norm3_normalize3 (v : Vec3) (hv : 0 < v.x ^ 2 + v.y ^ 2 + v.z ^ 2) :
    norm3 (normalize3 v) = 1 := by
  have hc : norm3 v = Real.sqrt (v.x ^ 2 + v.y ^ 2 + v.z ^ 2) := rfl
  have hcpos : 0 < norm3 v := by rw [hc]; exact Real.sqrt_pos.mpr hv
  have hc0 : norm3 v ≠ 0 := ne_of_gt hcpos
  have hsq : norm3 v ^ 2 = v.x ^ 2 + v.y ^ 2 + v.z ^ 2 := by
    rw [hc]; exact Real.sq_sqrt hv.le
  have hgoal : (normalize3 v).x ^ 2 + (normalize3 v).y ^ 2 + (normalize3 v).z ^ 2 = 1 := by
    simp only [normalize3]
    field_simp
    linarith [hsq]
  have hfin : norm3 (normalize3 v) =
      Real.sqrt ((normalize3 v).x ^ 2 + (normalize3 v).y ^ 2 + (normalize3 v).z ^ 2) := rfl
  rw [hfin, hgoal, Real.sqrt_one]

lemma set_nsurf_nsurf (s : State) (n : Vec3) :
    (set_nsurf s n).nsurf = (if norm3 n = 1 then n else normalize3 n) := rfl

lemma set_nsurf_R (s : State) (n : Vec3) :
    (set_nsurf s n).R =
      fromTwoVectors (if norm3 n = 1 then n else normalize3 n) unitZ := rfl

/-! ### C4: non-unit normals -/

/-- C4 counterexample: the (normal, box) constructor does not normalize —
constructing with normal (0, 0, 2) stores (0, 0, 2), not (0, 0, 1). -/
theorem c4_ctor_no_normalization_cex :
    (mkFromNsurf ⟨0, 0, 2⟩ ⟨1, 1⟩).nsurf = ⟨0, 0, 2⟩ ∧
    (mkFromNsurf ⟨0, 0, 2⟩ ⟨1, 1⟩).nsurf ≠ ⟨0, 0, 1⟩ := by
  refine ⟨rfl, ?_⟩
  intro h
  have h2 := congrArg Vec3.z h
  simp only [mkFromNsurf, update] at h2
  norm_num at h2

/-- C4 amended: only `set_nsurf` corrects a non-unit normal: it stores the
vector divided by its norm, takes the warning branch, and derives the
orientation as the shortest-arc rotation from the normalized normal to the
canonical up-axis; the (normal, box) constructor stores the vector exactly
as given, without normalization. -/
theorem c4_set_nsurf_normalizes (s : State) (n : Vec3) (h : norm3 n ≠ 1) :
    (set_nsurf s n).nsurf = normalize3 n ∧
    (set_nsurf s n).R = fromTwoVectors (normalize3 n) unitZ ∧
    nsurfWarns n ∧ ∀ b : Vec2, (mkFromNsurf n b).nsurf = n := by
  refine ⟨?_, ?_, h, fun b => rfl⟩
  · rw [set_nsurf_nsurf, if_neg h]
  · rw [set_nsurf_R, if_neg h]

/-- C4 witness: the amended statement holds at the concrete normal
(0, 0, 2), which `set_nsurf` stores as (0, 0, 1). -/
theorem c4_set_nsurf_normalizes_witness :
    norm3 ⟨0, 0, 2⟩ ≠ 1 ∧
    ((set_nsurf mkDefault ⟨0, 0, 2⟩).nsurf = normalize3 ⟨0, 0, 2⟩ ∧
      (set_nsurf mkDefault ⟨0, 0, 2⟩).R = fromTwoVectors (normalize3 ⟨0, 0, 2⟩) unitZ ∧
      nsurfWarns ⟨0, 0, 2⟩ ∧ ∀ b : Vec2, (mkFromNsurf ⟨0, 0, 2⟩ b).nsurf = ⟨0, 0, 2⟩) :=
  ⟨by rw [norm3_002]; norm_num,
   c4_set_nsurf_normalizes mkDefault ⟨0, 0, 2⟩ (by rw [norm3_002]; norm_num)⟩

/-! ### C7: normal versus orientation consistency -/

/-- C7 counterexample: the invariant `surface_normal = Rᵗ · up` does not
hold in every reachable state — constructing from the non-unit normal
(0, 0, 2) stores that vector while the derived orientation is the
identity, whose transpose maps the up-axis to (0, 0, 1) ≠ (0, 0, 2). -/
theorem c7_reachable_invariant_cex :
    (mkFromNsurf ⟨0, 0, 2⟩ ⟨1, 1⟩).nsurf ≠
      matTvec (mkFromNsurf ⟨0, 0, 2⟩ ⟨1, 1⟩).R unitZ := by
  have hR : (mkFromNsurf ⟨0, 0, 2⟩ ⟨1, 1⟩).R = id3 := by
    simp only [mkFromNsurf, update]
    exact fromTwoVectors_002_unitZ
  rw [hR]
  intro h
  have h2 := congrArg Vec3.z h
  simp only [mkFromNsurf, update, matTvec, id3, unitZ] at h2
  norm_num at h2

/-- C7 amended: the consistency holds at the operations the claim lists —
constructing from a rotation stores `Rᵗ · up` as the normal, `set_R`
re-establishes it, and constructing from a unit normal stores exactly that
normal — but it is not an invariant of every reachable state, since the
(normal, box) constructor accepts non-unit normals unnormalized. -/
theorem c7_normal_orientation_consistency (R : Mat3) (b : Vec2) (n : Vec3)
    (hn : norm3 n = 1) :
    (mkFromR R b).nsurf = matTvec R unitZ ∧
    (∀ s : State, (set_R s R).nsurf = matTvec R unitZ) ∧
    (mkFromNsurf n b).nsurf = n :=
  ⟨rfl, fun s => rfl, rfl⟩

/-- C7 witness: the amended statement holds at the identity rotation, box
(1, 1) and the unit normal (0, 0, 1). -/
theorem c7_normal_orientation_consistency_witness :
    norm3 unitZ = 1 ∧
    ((mkFromR id3 ⟨1, 1⟩).nsurf = matTvec id3 unitZ ∧
      (∀ s : State, (set_R s id3).nsurf = matTvec id3 unitZ) ∧
      (mkFromNsurf unitZ ⟨1, 1⟩).nsurf = unitZ) :=
  ⟨norm3_unitZ, c7_normal_orientation_consistency id3 ⟨1, 1⟩ unitZ norm3_unitZ⟩

/-! ### C10: set_nsurf always stores a unit normal for nonzero input -/

/-- C10: for every nonzero input vector, `set_nsurf` stores a normal of
exactly unit length — either the input already has norm 1 and is stored
unchanged, or it is divided by its (positive) norm; the nonzero
precondition is what keeps the division meaningful. -/
theorem c10_set_nsurf_unit_length (s : State) (n : Vec3) (h : n ≠ vec3Zero) :
    norm3 (set_nsurf s n).nsurf = 1 := by
  have hS : 0 < n.x ^ 2 + n.y ^ 2 + n.z ^ 2 := by
    rcases eq_or_lt_of_le (by positivity : (0 : ℝ) ≤ n.x ^ 2 + n.y ^ 2 + n.z ^ 2) with
      heq | hlt
    · exfalso
      apply h
      have hx : n.x = 0 := by
        have h2 : n.x ^ 2 = 0 :=
          le_antisymm (by nlinarith [sq_nonneg n.y, sq_nonneg n.z]) (sq_nonneg n.x)
        exact pow_eq_zero_iff two_ne_zero |>.mp h2
      have hy : n.y = 0 := by
        have h2 : n.y ^ 2 = 0 :=
          le_antisymm (by nlinarith [sq_nonneg n.x, sq_nonneg n.z]) (sq_nonneg n.y)
        exact pow_eq_zero_iff two_ne_zero |>.mp h2
      have hz : n.z = 0 := by
        have h2 : n.z ^ 2 = 0 :=
          le_antisymm (by nlinarith [sq_nonneg n.x, sq_nonneg n.y]) (sq_nonneg n.z)
        exact pow_eq_zero_iff two_ne_zero |>.mp h2
      refine Vec3.ext ?_ ?_ ?_ <;> simp [vec3Zero, hx, hy, hz]
    · exact hlt
  by_cases h1 : norm3 n = 1
  · rw [set_nsurf_nsurf, if_pos h1, h1]
  · rw [set_nsurf_nsurf, if_neg h1]
    exact norm3_normalize3 n hS

/-- C10 witness: the statement holds at the concrete nonzero input
(0, 0, 2). -/
theorem c10_set_nsurf_unit_length_witness :
    (⟨0, 0, 2⟩ : Vec3) ≠ vec3Zero ∧
    norm3 (set_nsurf mkDefault ⟨0, 0, 2⟩).nsurf = 1 :=
  ⟨by intro h; have h2 := congrArg Vec3.z h; norm_num [vec3Zero] at h2,
   c10_set_nsurf_unit_length mkDefault ⟨0, 0, 2⟩
     (by intro h; have h2 := congrArg Vec3.z h; norm_num [vec3Zero] at h2)⟩

/-! ### C8: end-to-end scenario with identity orientation and box (0.2, 0.1) -/

/-- C8: constructing with orientation = identity and extent = (0.2, 0.1)
yields row0 = [0,0,-0.05, 1,0,0], row1 = [0,0,-0.05, -1,0,0],
row2 = [0,0,-0.1, 0,1,0], row3 = [0,0,-0.1, 0,-1,0], all four upper bounds
zero, and all four lower bounds at the negative-unbounded sentinel. -/
theorem c8_end_to_end :
    mkFromR id3 ⟨0.2, 0.1⟩ =
      { A := ⟨⟨0, 0, -0.05, 1, 0, 0⟩,
              ⟨0, 0, -0.05, -1, 0, 0⟩,
              ⟨0, 0, -0.1, 0, 1, 0⟩,
              ⟨0, 0, -0.1, 0, -1, 0⟩⟩,
        ub := vec4Zero,
        lb := ⟨-maxVal, -maxVal, -maxVal, -maxVal⟩,
        R := id3,
        nsurf := unitZ,
        box := ⟨0.2, 0.1⟩ } := by
  simp only [mkFromR, update, matTvec, col0, col1, col2, id3, unitZ]
  norm_num

/-! ### C9: degradation from a wrench cone copies all fields verbatim -/

/-- C9: constructing a support-region descriptor from a wrench-cone
instance stores exactly its matrix, bounds, orientation, normal and extent;
no re-derivation of the matrix or bounds is performed. -/
theorem c9_from_wrench_cone (w : WrenchCone) :
    (mkFromWrenchCone w).A = w.A ∧ (mkFromWrenchCone w).ub = w.ub ∧
    (mkFromWrenchCone w).lb = w.lb ∧ (mkFromWrenchCone w).R = w.R ∧
    (mkFromWrenchCone w).nsurf = w.nsurf ∧ (mkFromWrenchCone w).box = w.box := by
  exact ⟨rfl, rfl, rfl, rfl, rfl, rfl⟩

end CoPSupport
